import Mathlib

/-!
Shallow embedding of `src/assignment-2/BenchDecorator/BenchDecorator.py`.

The source is a Python micro-benchmark decorator `bench(n_threads, seq_iter, iter)`
wrapping a workload `func`.  The wrapper, per call:
  * loops `iter` times (trials); in each trial it records a start timestamp
    (`time.perf_counter()`), creates `n_threads` threads each running `worker`
    (which calls `func(*args, **kwargs)` `seq_iter` times sequentially),
    starts them all, joins them all, records an end timestamp and appends
    `end - start` to `results`;
  * computes `statistics.mean(results)` (raises `StatisticsError` on an empty
    list), then `variance = 0` when `iter == 1` else `statistics.variance(results)`
    (sample variance, raises `StatisticsError` when fewer than two samples);
  * returns a dict with keys `fun`, `args`, `n_threads`, `seq_iter`, `iter`,
    `mean`, `variance`.

Modelling decisions:
  * Python ints are `Int`; `range(n)` for `n : Int` is modelled by
    `List.range n.toNat` (empty when `n ≤ 0`, as in Python).
  * Timing floats are modelled as `ℚ`.  Python's `statistics` module computes
    mean and variance internally with exact `Fraction` arithmetic, so `ℚ` is a
    faithful model of the reducer.  The clock is an oracle `clock : Nat → ℚ`
    giving the value returned by the k-th call to `time.perf_counter()` during
    the run; the wrapper calls it exactly twice per trial, so trial `i` reads
    `clock (2*i)` as its start and `clock (2*i+1)` as its end.
  * The workload's behaviour is an oracle `raises : Nat → Nat → Bool`:
    `raises w r = true` means worker `w`'s `r`-th repetition raises.  A raising
    call terminates that worker's loop (the exception propagates out of
    `worker`).  CPython's `threading` machinery catches an exception escaping a
    thread's target, reports it via `threading.excepthook` (by default a print
    to stderr) and lets the thread die; `Thread.join()` returns normally and
    never re-raises it.  Consequently the wrapper's control flow, and the dict
    it returns, do not depend on `raises`; only the log of workload
    invocations actually performed does.
  * `statistics.mean` / `statistics.variance` failures are the constructor
    `statisticsError`; the error type also carries `configurationError` so
    that statements about the absence of configuration checks are expressible
    (the source never raises one).
-/

/-- A record of one workload invocation: the positional and keyword arguments
the call `func(*args, **kwargs)` receives. -/
structure Invocation where
  args : List Int
  kwargs : List (String × Int)
deriving DecidableEq, Repr

/-- The dict returned by `wrapper` (keys `fun`, `args`, `n_threads`,
`seq_iter`, `iter`, `mean`, `variance`). -/
structure ResultDict where
  fun_name : String
  args : List Int
  n_threads : Int
  seq_iter : Int
  iter : Int
  mean : ℚ
  variance : ℚ
deriving DecidableEq, Repr

/-- Errors a run can raise.  `statisticsError` models `statistics.StatisticsError`
(raised by `statistics.mean` on an empty sequence and by `statistics.variance`
on fewer than two samples).  `configurationError` is the error class the spec
postulates for invalid configurations; the source never raises it, and carrying
the constructor lets theorems say so. -/
inductive BenchError where
  | statisticsError
  | configurationError
deriving DecidableEq, Repr

/-- Arithmetic mean of a list of rationals, `xs.sum / xs.length`. -/
def meanVal (xs : List ℚ) : ℚ := xs.sum / (xs.length : ℚ)

/-- `statistics.mean`: raises `StatisticsError` on an empty sequence,
otherwise the arithmetic mean. -/
def pymean (xs : List ℚ) : Except BenchError ℚ :=
  if xs.length = 0 then .error .statisticsError else .ok (meanVal xs)

/-- Sample variance (denominator `n - 1`) of a list of rationals. -/
def varVal (xs : List ℚ) : ℚ :=
  (xs.map (fun x => (x - meanVal xs) ^ 2)).sum / ((xs.length : ℚ) - 1)

/-- `statistics.variance`: raises `StatisticsError` on fewer than two samples,
otherwise the sample variance. -/
def pyvariance (xs : List ℚ) : Except BenchError ℚ :=
  if xs.length < 2 then .error .statisticsError else .ok (varVal xs)

/-- Number of workload calls a worker performs when `remaining` repetitions
are left and the next repetition has index `r`: the call at index `r` is made;
if it raises, the exception escapes `worker`'s loop and no further call
happens, otherwise the loop continues. -/
def workerLoop (raisesAt : Nat → Bool) : Nat → Nat → Nat
  | _, 0 => 0
  | r, remaining + 1 =>
      if raisesAt r then 1 else 1 + workerLoop raisesAt (r + 1) remaining

/-- Number of workload calls one worker performs: the worker runs
`for _ in range(seq_iter): func(*args, **kwargs)`; a raising call is performed
and then terminates the loop (the exception escapes `worker`). -/
def workerCallCount (seq_iter : Nat) (raisesAt : Nat → Bool) : Nat :=
  workerLoop raisesAt 0 seq_iter

/-- The invocations one worker performs, in order.  Every call passes the
closure's `args` and `kwargs` unchanged (`func(*args, **kwargs)`). -/
def workerInvocations (seq_iter : Nat) (args : List Int)
    (kwargs : List (String × Int)) (raisesAt : Nat → Bool) : List Invocation :=
  (List.range (workerCallCount seq_iter raisesAt)).map (fun _ => ⟨args, kwargs⟩)

/-- The invocations one trial performs: `n_threads` workers, worker `w`
driven by `raises w`. -/
def trialInvocations (n_threads seq_iter : Int) (args : List Int)
    (kwargs : List (String × Int)) (raises : Nat → Nat → Bool) :
    List Invocation :=
  ((List.range n_threads.toNat).map
    (fun w => workerInvocations seq_iter.toNat args kwargs (raises w))).flatten

/-- The per-trial elapsed times, in trial order: trial `i` computes
`execution_time = end_time - start_time` with `start_time = clock (2*i)` and
`end_time = clock (2*i+1)`, and appends it to `results`. -/
def results (iter : Int) (clock : Nat → ℚ) : List ℚ :=
  (List.range iter.toNat).map (fun i => clock (2 * i + 1) - clock (2 * i))

/-- The value `wrapper` returns or the error it raises.  Mirrors the source:
`statistics.mean(results)`, then `variance = 0 if iter == 1 else
statistics.variance(results)`, then the result dict.  The parameters `kwargs`
and `raises` are part of one call's data but are not read here: the dict
records only the positional `args`, and a workload exception dies with its
thread (`Thread.join` returns normally), never reaching this code. -/
def benchOutcome (funName : String) (n_threads seq_iter iter : Int)
    (args : List Int) (kwargs : List (String × Int)) (clock : Nat → ℚ)
    (raises : Nat → Nat → Bool) : Except BenchError ResultDict := do
  let res := results iter clock
  let average_execution_time ← pymean res
  let variance ← if iter = 1 then pure 0 else pyvariance res
  pure { fun_name := funName, args := args, n_threads := n_threads,
         seq_iter := seq_iter, iter := iter,
         mean := average_execution_time, variance := variance }

/-- The full log of workload invocations one `wrapper` call performs:
`iter` trials, each running `n_threads` workers of `seq_iter` repetitions. -/
def allInvocations (n_threads seq_iter iter : Int) (args : List Int)
    (kwargs : List (String × Int)) (raises : Nat → Nat → Bool) :
    List Invocation :=
  ((List.range iter.toNat).map
    (fun _ => trialInvocations n_threads seq_iter args kwargs raises)).flatten

/-- The observable events of one trial, in program order.  The source records
`start_time`, then creates the `n_threads` thread objects, then starts them
all, then joins them all, then records `end_time` and appends the elapsed
time. -/
inductive Event where
  | recordStart
  | createWorker
  | startWorker
  | joinWorker
  | recordEnd
  | appendTiming
deriving DecidableEq, Repr

/-- Event trace of one trial as the source executes it:
`start_time = time.perf_counter()`; `for _ in range(n_threads):
thread = threading.Thread(target=worker); threads.append(thread)`;
`for thread in threads: thread.start()`; `for thread in threads:
thread.join()`; `end_time = time.perf_counter()`;
`results.append(end_time - start_time)`. -/
def trialTrace (n_threads : Int) : List Event :=
  [Event.recordStart]
    ++ (List.range n_threads.toNat).map (fun _ => Event.createWorker)
    ++ (List.range n_threads.toNat).map (fun _ => Event.startWorker)
    ++ (List.range n_threads.toNat).map (fun _ => Event.joinWorker)
    ++ [Event.recordEnd, Event.appendTiming]

/-- The trial event order as claim C6 states it: all worker tasks created
first, then the start timestamp, then the launches, joins, end timestamp and
the append — with no worker-task creation between the start timestamp and the
launches.  Kept for comparison with `trialTrace`, which embeds the source. -/
def claimedTrialTrace (n_threads : Int) : List Event :=
  (List.range n_threads.toNat).map (fun _ => Event.createWorker)
    ++ [Event.recordStart]
    ++ (List.range n_threads.toNat).map (fun _ => Event.startWorker)
    ++ (List.range n_threads.toNat).map (fun _ => Event.joinWorker)
    ++ [Event.recordEnd, Event.appendTiming]

/-- The thread counts the sweep driver `test` iterates, in order. -/
def sweepThreadCounts : List Int := [1, 2, 4, 8]

/-- The configurations `test` derives: for each `n_threads` in order,
`seq_iter = 16 // n_threads` (Python floor division; the total repetition
budget is the literal `16` in the source). -/
def sweepConfigs : List (Int × Int) :=
  sweepThreadCounts.map (fun n_threads => (n_threads, Int.fdiv 16 n_threads))

/-- The engine outcomes the sweep driver produces, one per configuration, in
configuration order: `bench(n_threads=n, seq_iter=s, iter=iter)(fun)(*args)`.
The driver passes no keyword arguments, and each run's clock is that run's
sequence of `perf_counter` readings. -/
def sweepOutcomes (funName : String) (iter : Int) (args : List Int)
    (clocks : Nat → Nat → ℚ) (raises : Nat → Nat → Bool) :
    List (Except BenchError ResultDict) :=
  sweepConfigs.enum.map
    (fun p => benchOutcome funName p.2.1 p.2.2 iter args [] (clocks p.1) raises)

/-! ## Helper lemmas -/

theorem results_length (iter : Int) (clock : Nat → ℚ) :
    (results iter clock).length = iter.toNat := by
  simp [results]

theorem benchOutcome_ok (funName : String) (n_threads seq_iter iter : Int)
    (args : List Int) (kwargs : List (String × Int)) (clock : Nat → ℚ)
    (raises : Nat → Nat → Bool) (h : 1 ≤ iter) :
    benchOutcome funName n_threads seq_iter iter args kwargs clock raises
      = .ok { fun_name := funName, args := args, n_threads := n_threads,
              seq_iter := seq_iter, iter := iter,
              mean := meanVal (results iter clock),
              variance := if iter = 1 then 0
                          else varVal (results iter clock) } := by
  have hlen : (results iter clock).length = iter.toNat := results_length iter clock
  have hne : ¬ (results iter clock).length = 0 := by omega
  by_cases h1 : iter = 1
  · subst h1
    simp [benchOutcome, pymean, hne, Bind.bind, Except.bind, Pure.pure, Except.pure]
  · have h2 : 2 ≤ iter := by omega
    have hge : ¬ (results iter clock).length < 2 := by omega
    simp [benchOutcome, pymean, pyvariance, hne, hge, h1, Bind.bind, Except.bind, Pure.pure, Except.pure]

theorem benchOutcome_err (funName : String) (n_threads seq_iter iter : Int)
    (args : List Int) (kwargs : List (String × Int)) (clock : Nat → ℚ)
    (raises : Nat → Nat → Bool) (h : iter < 1) :
    benchOutcome funName n_threads seq_iter iter args kwargs clock raises
      = .error .statisticsError := by
  have hlen : (results iter clock).length = 0 := by
    rw [results_length]; omega
  simp [benchOutcome, pymean, hlen, Bind.bind, Except.bind]

theorem workerLoop_no_raise (raisesAt : Nat → Bool)
    (hok : ∀ r, raisesAt r = false) :
    ∀ remaining r, workerLoop raisesAt r remaining = remaining := by
  intro remaining
  induction remaining with
  | zero => intro r; rfl
  | succ m ih =>
      intro r
      simp [workerLoop, hok r, ih (r + 1), Nat.add_comm]

theorem workerLoop_first_raise (raisesAt : Nat → Bool) :
    ∀ remaining r k, k < remaining → raisesAt (r + k) = true →
      (∀ j < k, raisesAt (r + j) = false) →
      workerLoop raisesAt r remaining = k + 1 := by
  intro remaining
  induction remaining with
  | zero => intro r k hk; omega
  | succ m ih =>
      intro r k hk hraise hmin
      by_cases h0 : raisesAt r = true
      · have hk0 : k = 0 := by
          by_contra hne
          have hcontra := hmin 0 (by omega)
          simp [h0] at hcontra
        subst hk0
        simp [workerLoop, h0]
      · have hkpos : 0 < k := by
          by_contra hne
          have hk0 : k = 0 := by omega
          subst hk0
          rw [show r + 0 = r by omega] at hraise
          exact h0 hraise
        have hrec := ih (r + 1) (k - 1) (by omega)
          (by rw [show r + 1 + (k - 1) = r + k by omega]; exact hraise)
          (by
            intro j hj
            rw [show r + 1 + j = r + (j + 1) by omega]
            exact hmin (j + 1) (by omega))
        have h0' : raisesAt r = false := by
          cases hb : raisesAt r
          · rfl
          · exact absurd hb h0
        simp [workerLoop, h0', hrec]
        omega

theorem workerCallCount_no_raise (seq_iter : Nat) (raisesAt : Nat → Bool)
    (hok : ∀ r, raisesAt r = false) :
    workerCallCount seq_iter raisesAt = seq_iter :=
  workerLoop_no_raise raisesAt hok seq_iter 0

theorem workerCallCount_first_raise (seq_iter : Nat) (raisesAt : Nat → Bool)
    (k : Nat) (hk : k < seq_iter) (hraise : raisesAt k = true)
    (hmin : ∀ j < k, raisesAt j = false) :
    workerCallCount seq_iter raisesAt = k + 1 := by
  have := workerLoop_first_raise raisesAt seq_iter 0 k hk
    (by simpa using hraise) (by simpa using hmin)
  simpa [workerCallCount] using this

theorem trialInvocations_length_no_raise (n_threads seq_iter : Int)
    (args : List Int) (kwargs : List (String × Int))
    (raises : Nat → Nat → Bool) (hok : ∀ w r, raises w r = false) :
    (trialInvocations n_threads seq_iter args kwargs raises).length
      = n_threads.toNat * seq_iter.toNat := by
  simp only [trialInvocations, List.length_flatten, List.map_map]
  have hmap : ((List.range n_threads.toNat).map
      ((fun l => List.length l) ∘
        fun w => workerInvocations seq_iter.toNat args kwargs (raises w)))
      = (List.range n_threads.toNat).map (fun _ => seq_iter.toNat) := by
    apply List.map_congr_left
    intro w _
    simp [workerInvocations, workerCallCount_no_raise _ _ (hok w)]
  rw [hmap]
  simp [List.map_const', mul_comm]

/-! ## C1 -/

/-- C1: for every benchmark run with `iter = 1` (a single trial), the
returned result's `variance` field is exactly `0`, regardless of
`n_threads`, `seq_iter` and of the measured trial time: the source
special-cases `iter == 1` to `variance = 0` instead of calling
`statistics.variance`.  The full returned dict is pinned down, so the
variance field in particular is `0` for every clock oracle. -/
theorem variance_zero_single_trial (funName : String) (n_threads seq_iter : Int)
    (args : List Int) (kwargs : List (String × Int)) (clock : Nat → ℚ)
    (raises : Nat → Nat → Bool) :
    benchOutcome funName n_threads seq_iter 1 args kwargs clock raises
      = .ok { fun_name := funName, args := args, n_threads := n_threads,
              seq_iter := seq_iter, iter := 1,
              mean := clock 1 - clock 0, variance := 0 } := by
  have h := benchOutcome_ok funName n_threads seq_iter 1 args kwargs clock
    raises (by omega)
  rw [h]
  have hres : results 1 clock = [clock 1 - clock 0] := by
    norm_num [results, List.range_succ]
  simp [hres, meanVal]

/-! ## C2 -/

/-- C2 (counterexample): invoked with `n_threads = 0` (and `seq_iter = 1`,
`iter = 1`), the engine does not fail with a configuration error: it runs the
trial with zero workers, performs zero workload invocations, and returns a
full `BenchmarkResult` dict — the claim requires the run to fail with a
`ConfigurationError` and never return a result for such a config. -/
theorem run_zero_threads_returns_result :
    benchOutcome "f" 0 1 1 [] [] (fun _ => 0) (fun _ _ => false)
      = .ok { fun_name := "f", args := [], n_threads := 0, seq_iter := 1,
              iter := 1, mean := 0, variance := 0 }
    ∧ allInvocations 0 1 1 [] [] (fun _ _ => false) = [] := by
  constructor
  · rw [benchOutcome_ok "f" 0 1 1 [] [] (fun _ => 0) (fun _ _ => false)
      (by omega)]
    norm_num [meanVal, results, List.range_succ]
  · decide

/-- C2 (amended): the engine performs no configuration validation at all and
never raises a `ConfigurationError`.  Instead: with `iter < 1` the run fails
with a `StatisticsError` (from `statistics.mean` of the empty timing list)
after zero workload invocations; with `n_threads < 1` (and `iter ≥ 1`) the
trials run with zero workers, zero workload invocations are performed and a
`BenchmarkResult` is returned; likewise with `seq_iter < 1`, where each worker
performs zero invocations. -/
theorem no_configuration_check (funName : String) (n_threads seq_iter iter : Int)
    (args : List Int) (kwargs : List (String × Int)) (clock : Nat → ℚ)
    (raises : Nat → Nat → Bool) :
    benchOutcome funName n_threads seq_iter iter args kwargs clock raises
        ≠ .error .configurationError
    ∧ (iter < 1 →
        benchOutcome funName n_threads seq_iter iter args kwargs clock raises
            = .error .statisticsError
          ∧ allInvocations n_threads seq_iter iter args kwargs raises = [])
    ∧ (n_threads < 1 → 1 ≤ iter →
        (∃ r, benchOutcome funName n_threads seq_iter iter args kwargs clock
            raises = .ok r)
          ∧ allInvocations n_threads seq_iter iter args kwargs raises = [])
    ∧ (seq_iter < 1 → 1 ≤ iter →
        (∃ r, benchOutcome funName n_threads seq_iter iter args kwargs clock
            raises = .ok r)
          ∧ allInvocations n_threads seq_iter iter args kwargs raises = []) := by
  refine ⟨?_, ?_, ?_, ?_⟩
  · by_cases h : 1 ≤ iter
    · rw [benchOutcome_ok funName n_threads seq_iter iter args kwargs clock
        raises h]
      intro hc
      exact Except.noConfusion hc
    · rw [benchOutcome_err funName n_threads seq_iter iter args kwargs clock
        raises (by omega)]
      intro hc
      exact BenchError.noConfusion (Except.error.inj hc)
  · intro h
    have h0 : iter.toNat = 0 := by omega
    refine ⟨benchOutcome_err funName n_threads seq_iter iter args kwargs clock
      raises h, ?_⟩
    simp [allInvocations, h0]
  · intro hn hit
    have h0 : n_threads.toNat = 0 := by omega
    refine ⟨⟨_, benchOutcome_ok funName n_threads seq_iter iter args kwargs
      clock raises hit⟩, ?_⟩
    simp [allInvocations, trialInvocations, h0]
  · intro hs hit
    have h0 : seq_iter.toNat = 0 := by omega
    refine ⟨⟨_, benchOutcome_ok funName n_threads seq_iter iter args kwargs
      clock raises hit⟩, ?_⟩
    simp [allInvocations, trialInvocations, workerInvocations,
      workerCallCount, h0, workerLoop]

/-- C2 (witness for the amended theorem): concrete instances — with
`iter = 0` the outcome is the statistics error and no invocation happens;
with `n_threads = 0, iter = 1` a result is returned and no invocation
happens; with `seq_iter = -3, iter = 1` likewise. -/
theorem no_configuration_check_witness :
    (benchOutcome "f" 2 3 0 [1] [] (fun _ => 0) (fun _ _ => false)
        = .error .statisticsError
      ∧ allInvocations 2 3 0 [1] [] (fun _ _ => false) = [])
    ∧ ((∃ r, benchOutcome "f" 0 3 1 [1] [] (fun _ => 0) (fun _ _ => false)
          = .ok r)
      ∧ allInvocations 0 3 1 [1] [] (fun _ _ => false) = [])
    ∧ ((∃ r, benchOutcome "f" 2 (-3) 1 [1] [] (fun _ => 0) (fun _ _ => false)
          = .ok r)
      ∧ allInvocations 2 (-3) 1 [1] [] (fun _ _ => false) = []) :=
  ⟨(no_configuration_check "f" 2 3 0 [1] [] (fun _ => 0)
      (fun _ _ => false)).2.1 (by omega),
   (no_configuration_check "f" 0 3 1 [1] [] (fun _ => 0)
      (fun _ _ => false)).2.2.1 (by omega) (by omega),
   (no_configuration_check "f" 2 (-3) 1 [1] [] (fun _ => 0)
      (fun _ _ => false)).2.2.2 (by omega) (by omega)⟩

/-! ## C3 -/

/-- C3 (counterexample): a run (`n_threads = 1`, `seq_iter = 2`, `iter = 1`)
whose workload raises on its very first repetition.  Only one of the two
scheduled invocations is performed (the worker dies on the raising call), yet
the engine returns a full `BenchmarkResult` — the claim requires the run to
abort without returning a result whenever a worker's workload invocation
fails. -/
theorem workload_failure_swallowed_cex :
    allInvocations 1 2 1 [0] [] (fun _ _ => true) = [⟨[0], []⟩]
    ∧ benchOutcome "f" 1 2 1 [0] [] (fun _ => 0) (fun _ _ => true)
        = .ok { fun_name := "f", args := [0], n_threads := 1, seq_iter := 2,
                iter := 1, mean := 0, variance := 0 } := by
  constructor
  · decide
  · rw [benchOutcome_ok "f" 1 2 1 [0] [] (fun _ => 0) (fun _ _ => true)
      (by omega)]
    norm_num [meanVal, results, List.range_succ]

/-- C3 (amended): a workload exception is confined to its worker thread.  In
CPython an exception escaping a thread's target is reported by
`threading.excepthook` and the thread dies; `Thread.join()` returns normally.
So (a) whenever `iter ≥ 1` the engine returns a `BenchmarkResult` no matter
which invocations raise, (b) the returned value is entirely independent of
which invocations raise, and (c) a worker whose first raising repetition has
index `k` performs exactly `k + 1` of its `seq_iter` calls, so the trial's
data is silently missing the remaining work. -/
theorem workload_failure_swallowed (funName : String)
    (n_threads seq_iter iter : Int) (args : List Int)
    (kwargs : List (String × Int)) (clock : Nat → ℚ)
    (raises raises' : Nat → Nat → Bool) (hit : 1 ≤ iter) :
    (∃ r, benchOutcome funName n_threads seq_iter iter args kwargs clock raises
        = .ok r)
    ∧ benchOutcome funName n_threads seq_iter iter args kwargs clock raises
        = benchOutcome funName n_threads seq_iter iter args kwargs clock raises'
    ∧ ∀ w k, k < seq_iter.toNat → raises w k = true →
        (∀ j < k, raises w j = false) →
        (workerInvocations seq_iter.toNat args kwargs (raises w)).length
          = k + 1 := by
  refine ⟨⟨_, benchOutcome_ok funName n_threads seq_iter iter args kwargs clock
    raises hit⟩, rfl, ?_⟩
  intro w k hk hraise hmin
  simp [workerInvocations,
    workerCallCount_first_raise seq_iter.toNat (raises w) k hk hraise hmin]

/-- C3 (witness for the amended theorem): a concrete run (`n_threads = 1`,
`seq_iter = 3`, `iter = 1`) whose workload raises on repetition 1: the
outcome exists, equals the outcome of a never-raising run, and the worker
performs exactly 2 of its 3 calls. -/
theorem workload_failure_swallowed_witness :
    (∃ r, benchOutcome "g" 1 3 1 [7] [] (fun _ => 0) (fun _ k => k == 1)
        = .ok r)
    ∧ benchOutcome "g" 1 3 1 [7] [] (fun _ => 0) (fun _ k => k == 1)
        = benchOutcome "g" 1 3 1 [7] [] (fun _ => 0) (fun _ _ => false)
    ∧ (workerInvocations 3 [7] [] (fun k => k == 1)).length = 2 := by
  have h := workload_failure_swallowed "g" 1 3 1 [7] [] (fun _ => 0)
    (fun _ k => k == 1) (fun _ _ => false) (by omega)
  refine ⟨h.1, h.2.1, ?_⟩
  have h3 := h.2.2 0 1 (by omega) (by decide)
    (by
      intro j hj
      have hj0 : j = 0 := by omega
      subst hj0
      decide)
  simpa using h3

/-! ## C4 -/

/-- C4: for every valid config and a workload that never raises, each worker
calls the workload exactly `seq_iter` times, each trial performs exactly
`n_threads * seq_iter` invocations, and the whole run performs
`iter * n_threads * seq_iter` invocations. -/
theorem call_count_exact (n_threads seq_iter iter : Int) (args : List Int)
    (kwargs : List (String × Int)) (raises : Nat → Nat → Bool)
    (hn : 1 ≤ n_threads) (hs : 1 ≤ seq_iter) (hit : 1 ≤ iter)
    (hok : ∀ w r, raises w r = false) :
    (∀ w, (workerInvocations seq_iter.toNat args kwargs (raises w)).length
        = seq_iter.toNat)
    ∧ (trialInvocations n_threads seq_iter args kwargs raises).length
        = n_threads.toNat * seq_iter.toNat
    ∧ (allInvocations n_threads seq_iter iter args kwargs raises).length
        = iter.toNat * (n_threads.toNat * seq_iter.toNat) := by
  refine ⟨?_, ?_, ?_⟩
  · intro w
    simp [workerInvocations, workerCallCount_no_raise _ _ (hok w)]
  · exact trialInvocations_length_no_raise n_threads seq_iter args kwargs
      raises hok
  · simp only [allInvocations, List.length_flatten, List.map_map]
    have hmap : ((List.range iter.toNat).map
        ((fun l => List.length l) ∘
          fun _ => trialInvocations n_threads seq_iter args kwargs raises))
        = (List.range iter.toNat).map
            (fun _ => n_threads.toNat * seq_iter.toNat) := by
      apply List.map_congr_left
      intro t _
      simp [trialInvocations_length_no_raise n_threads seq_iter args kwargs
        raises hok]
    rw [hmap]
    simp [List.map_const', mul_comm]

/-- C4 (witness): with `n_threads = 4`, `seq_iter = 4`, `iter = 1` and a
never-raising workload, the trial performs exactly 16 invocations. -/
theorem call_count_exact_witness :
    (trialInvocations 4 4 [] [] (fun _ _ => false)).length = 16 := by
  have h := (call_count_exact 4 4 1 [] [] (fun _ _ => false)
    (by omega) (by omega) (by omega) (fun _ _ => rfl)).2.1
  simpa using h

/-! ## C5 -/

/-- C5: the sweep driver `test` iterates the thread counts `[1, 2, 4, 8]` in
that order, derives each per-thread repetition count as `16 // n_threads`
(floor division of the fixed total-repetition budget 16), yielding
`seq_iter` values `16, 8, 4, 2`, and invokes the engine once per
configuration in that order. -/
theorem sweep_configs_order (funName : String) (iter : Int) (args : List Int)
    (clocks : Nat → Nat → ℚ) (raises : Nat → Nat → Bool) :
    sweepThreadCounts = [1, 2, 4, 8]
    ∧ sweepConfigs = [(1, 16), (2, 8), (4, 4), (8, 2)]
    ∧ sweepOutcomes funName iter args clocks raises
        = [benchOutcome funName 1 16 iter args [] (clocks 0) raises,
           benchOutcome funName 2 8 iter args [] (clocks 1) raises,
           benchOutcome funName 4 4 iter args [] (clocks 2) raises,
           benchOutcome funName 8 2 iter args [] (clocks 3) raises] := by
  refine ⟨rfl, by decide, ?_⟩
  simp [sweepOutcomes, sweepConfigs, sweepThreadCounts, List.enum]

/-! ## C6 -/

/-- C6 (counterexample): at `n_threads = 1` the source's trial trace records
the start timestamp first and only then creates the worker task — a
`createWorker` event sits between `recordStart` and `startWorker` — so the
trace differs from the order the claim states (creation before the start
timestamp, with no creation between the start timestamp and the launches). -/
theorem trace_order_cex :
    trialTrace 1 = [Event.recordStart, Event.createWorker, Event.startWorker,
      Event.joinWorker, Event.recordEnd, Event.appendTiming]
    ∧ trialTrace 1 ≠ claimedTrialTrace 1 := by
  decide

/-- C6 (amended): within each trial the engine first records the start
timestamp, then creates all `n_threads` worker tasks (creation happens
between the start timestamp and the launches), launches them all, blocks
until every worker has finished, records the end timestamp, and appends
elapsed time = end − start to the trial-timing sequence: entry `i` of
`results` is `clock (2*i+1) - clock (2*i)`, trial `i`'s end reading minus its
start reading. -/
theorem trace_start_before_create (n_threads : Int) :
    trialTrace n_threads
      = [Event.recordStart]
        ++ List.replicate n_threads.toNat Event.createWorker
        ++ List.replicate n_threads.toNat Event.startWorker
        ++ List.replicate n_threads.toNat Event.joinWorker
        ++ [Event.recordEnd, Event.appendTiming]
    ∧ ∀ (iter : Int) (clock : Nat → ℚ) (i : Nat), i < iter.toNat →
        (results iter clock)[i]? = some (clock (2 * i + 1) - clock (2 * i)) := by
  constructor
  · simp [trialTrace, List.map_const']
  · intro iter clock i hi
    simp [results, List.getElem?_map, List.getElem?_range, hi]

/-- C6 (witness for the amended theorem): at `n_threads = 2` the trace is
concretely `[recordStart, create, create, start, start, join, join,
recordEnd, appendTiming]`, and with a one-trial run under the clock
`clock k = k` the single recorded elapsed time is `1 - 0 = 1`. -/
theorem trace_start_before_create_witness :
    trialTrace 2 = [Event.recordStart, Event.createWorker, Event.createWorker,
      Event.startWorker, Event.startWorker, Event.joinWorker, Event.joinWorker,
      Event.recordEnd, Event.appendTiming]
    ∧ (results 1 (fun k => (k : ℚ)))[0]? = some 1 := by
  refine ⟨by simpa using (trace_start_before_create 2).1, ?_⟩
  have h := (trace_start_before_create 2).2 1 (fun k => (k : ℚ)) 0 (by decide)
  simpa using h

/-! ## C7 -/

/-- C7: for every valid config, assuming each trial's end clock reading is at
least its start reading (monotonic clock: every elapsed time is non-negative),
the returned result has `mean ≥ 0`, and when `iter > 1` also `variance ≥ 0`. -/
theorem mean_variance_nonneg (funName : String) (n_threads seq_iter iter : Int)
    (args : List Int) (kwargs : List (String × Int)) (clock : Nat → ℚ)
    (raises : Nat → Nat → Bool)
    (hn : 1 ≤ n_threads) (hs : 1 ≤ seq_iter) (hit : 1 ≤ iter)
    (hclock : ∀ i, clock (2 * i) ≤ clock (2 * i + 1)) :
    ∃ r, benchOutcome funName n_threads seq_iter iter args kwargs clock raises
        = .ok r
      ∧ 0 ≤ r.mean ∧ (1 < iter → 0 ≤ r.variance) := by
  refine ⟨_, benchOutcome_ok funName n_threads seq_iter iter args kwargs clock
    raises hit, ?_, ?_⟩
  · show 0 ≤ meanVal (results iter clock)
    apply div_nonneg
    · apply List.sum_nonneg
      intro x hx
      simp only [results, List.mem_map, List.mem_range] at hx
      obtain ⟨i, _, rfl⟩ := hx
      have := hclock i
      linarith
    · positivity
  · intro h1
    show 0 ≤ if iter = 1 then 0 else varVal (results iter clock)
    have hne : ¬ iter = 1 := by omega
    rw [if_neg hne]
    apply div_nonneg
    · apply List.sum_nonneg
      intro x hx
      simp only [List.mem_map] at hx
      obtain ⟨y, _, rfl⟩ := hx
      positivity
    · have h2 : (2 : ℚ) ≤ ((results iter clock).length : ℚ) := by
        rw [results_length]
        exact_mod_cast (by omega : 2 ≤ iter.toNat)
      linarith

/-- C7 (witness): a concrete two-trial run under the clock `clock k = k`
returns a result with non-negative mean and variance. -/
theorem mean_variance_nonneg_witness :
    ∃ r, benchOutcome "f" 1 1 2 [] [] (fun k => (k : ℚ)) (fun _ _ => false)
        = .ok r
      ∧ 0 ≤ r.mean ∧ (1 < (2 : Int) → 0 ≤ r.variance) :=
  mean_variance_nonneg "f" 1 1 2 [] [] (fun k => (k : ℚ)) (fun _ _ => false)
    (by omega) (by omega) (by omega)
    (fun i => by
      show ((2 * i : Nat) : ℚ) ≤ ((2 * i + 1 : Nat) : ℚ)
      exact_mod_cast Nat.le_succ (2 * i))

/-! ## C8 -/

/-- C8: for every valid config, the returned dict carries the workload's
name, the positional arguments used, and the three parameters `n_threads`,
`seq_iter`, `iter` echoed back unchanged, together with the `mean` and
`variance` fields computed from the trial timings. -/
theorem result_fields_echoed (funName : String) (n_threads seq_iter iter : Int)
    (args : List Int) (kwargs : List (String × Int)) (clock : Nat → ℚ)
    (raises : Nat → Nat → Bool)
    (hn : 1 ≤ n_threads) (hs : 1 ≤ seq_iter) (hit : 1 ≤ iter) :
    ∃ r, benchOutcome funName n_threads seq_iter iter args kwargs clock raises
        = .ok r
      ∧ r.fun_name = funName ∧ r.args = args ∧ r.n_threads = n_threads
      ∧ r.seq_iter = seq_iter ∧ r.iter = iter
      ∧ r.mean = meanVal (results iter clock)
      ∧ r.variance = (if iter = 1 then 0 else varVal (results iter clock)) :=
  ⟨_, benchOutcome_ok funName n_threads seq_iter iter args kwargs clock raises
    hit, rfl, rfl, rfl, rfl, rfl, rfl, rfl⟩

/-- C8 (witness): the echo property at a concrete valid config. -/
theorem result_fields_echoed_witness :
    ∃ r, benchOutcome "f" 2 3 4 [9] [("k", 1)] (fun _ => 0) (fun _ _ => false)
        = .ok r
      ∧ r.fun_name = "f" ∧ r.args = [9] ∧ r.n_threads = 2
      ∧ r.seq_iter = 3 ∧ r.iter = 4
      ∧ r.mean = meanVal (results 4 (fun _ => 0))
      ∧ r.variance = (if (4 : Int) = 1 then 0
          else varVal (results 4 (fun _ => 0))) :=
  result_fields_echoed "f" 2 3 4 [9] [("k", 1)] (fun _ => 0) (fun _ _ => false)
    (by omega) (by omega) (by omega)

/-! ## C9 -/

/-- C9: when the wrapper is called with keyword arguments, every workload
invocation receives those keyword arguments (together with the positional
ones), but the returned dict's `args` field records only the positional
arguments and the outcome is entirely independent of the keyword arguments —
they appear nowhere in the returned result. -/
theorem kwargs_forwarded_not_recorded (funName : String)
    (n_threads seq_iter iter : Int) (args : List Int)
    (kwargs kwargs' : List (String × Int)) (clock : Nat → ℚ)
    (raises : Nat → Nat → Bool) :
    (∀ inv ∈ allInvocations n_threads seq_iter iter args kwargs raises,
        inv.args = args ∧ inv.kwargs = kwargs)
    ∧ benchOutcome funName n_threads seq_iter iter args kwargs clock raises
        = benchOutcome funName n_threads seq_iter iter args kwargs' clock raises
    ∧ (∀ r, benchOutcome funName n_threads seq_iter iter args kwargs clock
          raises = .ok r → r.args = args) := by
  refine ⟨?_, rfl, ?_⟩
  · intro inv hinv
    rw [allInvocations, List.mem_flatten] at hinv
    obtain ⟨l, hl, hinvl⟩ := hinv
    rw [List.mem_map] at hl
    obtain ⟨t, ht, rfl⟩ := hl
    rw [trialInvocations, List.mem_flatten] at hinvl
    obtain ⟨l2, hl2, hinvl2⟩ := hinvl
    rw [List.mem_map] at hl2
    obtain ⟨w, hw, rfl⟩ := hl2
    rw [workerInvocations, List.mem_map] at hinvl2
    obtain ⟨k, hk, rfl⟩ := hinvl2
    exact ⟨rfl, rfl⟩
  · intro r hr
    by_cases hit : 1 ≤ iter
    · rw [benchOutcome_ok funName n_threads seq_iter iter args kwargs clock
        raises hit] at hr
      cases hr
      rfl
    · rw [benchOutcome_err funName n_threads seq_iter iter args kwargs clock
        raises (by omega)] at hr
      exact Except.noConfusion hr

/-- C9 (witness): at a concrete run with keyword arguments `[("k", 5)]`, the
single performed invocation carries the keyword arguments, the outcome equals
the outcome of the same run with no keyword arguments, and the returned
dict's `args` field is the positional `[3]`. -/
theorem kwargs_forwarded_not_recorded_witness :
    ((⟨[3], [("k", 5)]⟩ : Invocation).args = [3]
      ∧ (⟨[3], [("k", 5)]⟩ : Invocation).kwargs = [("k", 5)])
    ∧ benchOutcome "f" 1 1 1 [3] [("k", 5)] (fun _ => 0) (fun _ _ => false)
        = benchOutcome "f" 1 1 1 [3] [] (fun _ => 0) (fun _ _ => false) := by
  have h := kwargs_forwarded_not_recorded "f" 1 1 1 [3] [("k", 5)] []
    (fun _ => 0) (fun _ _ => false)
  exact ⟨h.1 ⟨[3], [("k", 5)]⟩ (by decide), h.2.1⟩

/-! ## C10 -/

/-- C10: invoked with `iter = 0` (any `n_threads`, any `seq_iter`), the
engine runs zero trials and performs zero workload invocations, then fails
with the `StatisticsError` that `statistics.mean` raises on the empty
trial-timing list — not with a configuration error, and without returning a
result. -/
theorem zero_trials_statistics_error (funName : String)
    (n_threads seq_iter : Int) (args : List Int)
    (kwargs : List (String × Int)) (clock : Nat → ℚ)
    (raises : Nat → Nat → Bool) :
    results 0 clock = []
    ∧ allInvocations n_threads seq_iter 0 args kwargs raises = []
    ∧ benchOutcome funName n_threads seq_iter 0 args kwargs clock raises
        = .error .statisticsError := by
  refine ⟨rfl, by simp [allInvocations], ?_⟩
  exact benchOutcome_err funName n_threads seq_iter 0 args kwargs clock raises
    (by omega)
